import Mathlib

/-!
Shallow Lean embedding of the golazy/lazyservice supervisor.

The repository contains two parallel copies of the supervisor: the current
`lazyservice` package (`manager`, in src/unnamed/part_000 together with
src/lazyservice.go) and the older `lazyapp` package embedded in
src/lazyapp_test.go (`lazyApp`, `AppGet`, `AppSet`, `AddValue`,
`ServiceFunc`).  Their orchestration logic (per-task error classification,
errgroup aggregation, per-service logger binding) is line-for-line the same;
the embedding below follows the source of both, naming each definition after
the source symbol it renders.

Standard-library collaborators (`errors.Is`, `context.WithValue`,
`os/signal.NotifyContext`, `golang.org/x/sync/errgroup`) are modelled by
their documented semantics, since their code is not part of the repository.
-/

/-! ### Go error values and `errors.Is`

Go errors are modelled as a tree of wrapped errors.  The two context
sentinels `context.Canceled` and `context.DeadlineExceeded` are dedicated
constructors (in Go they are unique package-level values); `base` is any
other leaf error (e.g. one made by `errors.New` / `fmt.Errorf`), and `wrap`
is an error wrapping another one (e.g. `fmt.Errorf` with the `%w` verb).
A Go `error` variable that is `nil` is rendered as `Option.none` at use
sites, so `GoErr` itself only holds non-nil errors. -/

inductive GoErr where
  | canceled
  | deadlineExceeded
  | base (msg : String)
  | wrap (inner : GoErr) (msg : String)
deriving DecidableEq

/-- `errors.Is(err, target)` from the Go standard library: report whether
`target` appears in `err`'s unwrap chain, comparing errors by identity
(sentinel constructors compare equal only to themselves). -/
def errorsIs : GoErr → GoErr → Bool
  | GoErr.wrap inner m, t =>
      if GoErr.wrap inner m = t then true else errorsIs inner t
  | e, t => if e = t then true else false

/-- The benign-termination test from the task closure in `manager.Run` /
`lazyApp.Run`: `errors.Is(err, context.Canceled) ||
errors.Is(err, context.DeadlineExceeded)`. -/
def benign (e : GoErr) : Bool :=
  errorsIs e GoErr.canceled || errorsIs e GoErr.deadlineExceeded

/-- The per-task result classification from the closure passed to `grp.Go`
in `manager.Run` / `lazyApp.Run`: a benign error (cancellation or deadline
equivalents) is swallowed to `nil`; any other value (including `nil`
itself) is returned unchanged after being logged.  Logging is an external
collaborator and has no effect on the returned value. -/
def classify : Option GoErr → Option GoErr
  | none => none
  | some e => if benign e then none else some e

/-! ### The errgroup aggregation state machine

`golang.org/x/sync/errgroup` (external collaborator, modelled from its
documented semantics): the group created by `errgroup.WithContext` records
the first non-nil error returned by any of its functions and cancels the
group context at that moment; every later non-nil error is discarded and
nil results leave the group untouched.  `Wait` returns the recorded
error. -/

structure GroupState where
  firstErr : Option GoErr
  canceled : Bool
deriving DecidableEq

/-- How the group absorbs the value returned by one finished task. -/
def groupStep (st : GroupState) (contribution : Option GoErr) : GroupState :=
  match contribution with
  | none => st
  | some e =>
    match st.firstErr with
    | none => { firstErr := some e, canceled := true }
    | some _ => st

/-- State of the group before any task has finished. -/
def groupStart : GroupState := { firstErr := none, canceled := false }

/-- Absorb a whole list of task results, in completion order. -/
def groupRun : List (Option GoErr) → GroupState → GroupState
  | [], st => st
  | c :: cs, st => groupRun cs (groupStep st c)

/-- First non-`none` entry of a list of optional errors, if any. -/
def firstSome (cs : List (Option GoErr)) : Option GoErr :=
  (cs.filterMap id).head?

/-- Value returned by `grp.Wait()` in `manager.Run` / `lazyApp.Run`, as a
function of the raw per-service results listed in task completion order:
each task classifies its own result before contributing it to the group,
and `Wait` returns the group's recorded error. -/
def managerRunFromArrivals (raw : List (Option GoErr)) : Option GoErr :=
  (groupRun (raw.map classify) groupStart).firstErr

/-! ### Basic lemmas about the group fold -/

theorem groupStep_after_error (st : GroupState) (e : GoErr)
    (h : st.firstErr = some e) : ∀ c, groupStep st c = st := by
  intro c
  cases c with
  | none => rfl
  | some x => simp [groupStep, h]

theorem groupRun_after_error (cs : List (Option GoErr)) (st : GroupState)
    (e : GoErr) (h : st.firstErr = some e) : groupRun cs st = st := by
  induction cs with
  | nil => rfl
  | cons c cs ih => simp [groupRun, groupStep_after_error st e h, ih]

theorem groupRun_firstErr (cs : List (Option GoErr)) :
    (groupRun cs groupStart).firstErr = firstSome cs := by
  induction cs with
  | nil => rfl
  | cons c cs ih =>
    cases c with
    | none =>
      simpa [groupRun, groupStep, firstSome] using ih
    | some e =>
      have hfrozen : groupRun cs { firstErr := some e, canceled := true } =
          { firstErr := some e, canceled := true } :=
        groupRun_after_error cs _ e rfl
      simp [groupRun, groupStep, groupStart, hfrozen, firstSome]

theorem groupRun_canceled (cs : List (Option GoErr)) :
    (groupRun cs groupStart).canceled = cs.any (fun c => c.isSome) := by
  induction cs with
  | nil => rfl
  | cons c cs ih =>
    cases c with
    | none =>
      simpa [groupRun, groupStep] using ih
    | some e =>
      have hfrozen : groupRun cs { firstErr := some e, canceled := true } =
          { firstErr := some e, canceled := true } :=
        groupRun_after_error cs _ e rfl
      simp [groupRun, groupStep, groupStart, hfrozen]

/-! ### Go types, values and the value-carrying context chain

`reflect.Type` tokens, the dynamic type of stored `any` values, and
`context.WithValue` chains, as used by the typed capability store
(`AppGet` / `AppSet` / `AddValue` in the `lazyapp` copy, `lazycontext` in
the `lazyservice` copy). -/

/-- A structured `slog.Logger` handle: which underlying handler it writes
to plus the attributes accumulated through `Logger.With`. -/
structure SlogLogger where
  handler : Nat
  attrs : List (String × String)
deriving DecidableEq

/-- `l.With(k, v)` from `log/slog`: a logger with one more attribute. -/
def SlogLogger.withAttr (l : SlogLogger) (k v : String) : SlogLogger :=
  { l with attrs := l.attrs ++ [(k, v)] }

/-- `slog.Default()`, the process-wide default logger. -/
def slogDefault : SlogLogger := { handler := 0, attrs := [] }

/-- Payload of a Go value stored as `any`: a nil pointer / nil interface,
a logger pointer, a string, an integer, or an opaque non-nil pointer (for
struct pointers such as `*testStruct`). -/
inductive GoPayload where
  | nilPtr
  | logger (l : SlogLogger)
  | str (s : String)
  | int (n : Int)
  | ptr (addr : Nat)
deriving DecidableEq

/-- A Go type as seen through `reflect`: an identity, whether it is an
interface type (`reflect.TypeOf` of its zero value is then nil), and the
payload of its zero value. -/
structure GoType where
  id : Nat
  isInterface : Bool
  zeroPay : GoPayload
deriving DecidableEq

/-- A dynamically typed Go value: its dynamic type and its payload. -/
structure GoVal where
  ty : GoType
  payload : GoPayload
deriving DecidableEq

/-- `*new(T)`, the zero value of a type. -/
def zeroVal (T : GoType) : GoVal := { ty := T, payload := T.zeroPay }

/-- The type `*slog.Logger` (zero value: nil pointer). -/
def ptrSlogLoggerT : GoType :=
  { id := 0, isInterface := false, zeroPay := GoPayload.nilPtr }

/-- The type `string` (zero value: the empty string). -/
def strT : GoType :=
  { id := 1, isInterface := false, zeroPay := GoPayload.str "" }

/-- The type `*testStruct` from the tests (zero value: nil pointer). -/
def ptrTestStructT : GoType :=
  { id := 2, isInterface := false, zeroPay := GoPayload.nilPtr }

/-- The interface type `error` (zero value: nil interface). -/
def errIfaceT : GoType :=
  { id := 3, isInterface := true, zeroPay := GoPayload.nilPtr }

/-- A non-nil context key: either a `reflect.Type` token (as produced by
`AppSet` and by the per-service logger binding) or a plain string key (as
used by `app.AddValue("key", "value")` in the tests). -/
inductive Key where
  | typeTok (t : GoType)
  | strKey (s : String)
deriving DecidableEq

/-- `reflect.TypeOf(*new(T))`, the token under which `AppSet` / `AppGet`
index type `T`: the type itself for a concrete type, and nil for an
interface type, whose zero value is a nil interface. -/
def typeTokenKey (T : GoType) : Option Key :=
  if T.isInterface then none else some (Key.typeTok T)

/-- A value-carrying context chain: `context.Background()` or a
`context.WithValue` node holding one key/value pair over a parent.
Contexts are immutable; deriving a child never changes the parent. -/
inductive GoCtx where
  | background
  | node (parent : GoCtx) (key : Key) (val : GoVal)
deriving DecidableEq

/-- `ctx.Value(query)`: walk from the context outward to the nearest node
whose key equals the query.  `Background` answers nil, and a stored
(necessarily non-nil) key never equals a nil query. -/
def ctxValue : GoCtx → Option Key → Option GoVal
  | GoCtx.background, _ => none
  | GoCtx.node parent k v, query =>
      if some k = query then some v else ctxValue parent query

/-- `context.WithValue(parent, key, val)` (standard library, documented
semantics): panics when the key is nil, otherwise derives a new child node;
the panic is rendered as `Except.error`. -/
def withValue (parent : GoCtx) (key : Option Key) (v : GoVal) :
    Except String GoCtx :=
  match key with
  | none => Except.error "nil key"
  | some k => Except.ok (GoCtx.node parent k v)

/-- Whether some node of the chain (the context or any ancestor) binds the
given key. -/
def bindsKey : GoCtx → Key → Bool
  | GoCtx.background, _ => false
  | GoCtx.node parent k _, q => (k = q) || bindsKey parent q

/-- Whether type `T` is bound on the context or any ancestor: an interface
type has a nil token and hence is never bound. -/
def boundForType (c : GoCtx) (T : GoType) : Bool :=
  match typeTokenKey T with
  | some k => bindsKey c k
  | none => false

/-- `AppGet[T](app)` from the `lazyapp` source: look the token
`reflect.TypeOf(*new(T))` up in the context, type-assert the result to `T`,
and fall back to `T`'s zero value when the lookup or the assertion fails.
Total: it never errors or panics. -/
def appGet (T : GoType) (c : GoCtx) : GoVal :=
  match ctxValue c (typeTokenKey T) with
  | some v => if v.ty = T then v else zeroVal T
  | none => zeroVal T

/-- The mutable part of a `lazyApp` that the capability store touches: its
current context reference, nil until one is created.  (The remaining
fields — name, version, logger, services, done, cancel — do not participate
in the store operations and are modelled where they are used.) -/
structure LazyAppState where
  ctx : Option GoCtx
deriving DecidableEq

/-- The context `lazyApp.AddValue` starts from: the app's own context, or
`context.Background()` when the app has none yet. -/
def baseCtx (a : LazyAppState) : GoCtx :=
  match a.ctx with
  | some c0 => c0
  | none => GoCtx.background

/-- `lazyApp.AddValue(key, value)`: take the app's context (or Background
when it has none) and replace it by a `WithValue` child binding the pair;
a nil key makes `context.WithValue` panic. -/
def addValue (a : LazyAppState) (key : Option Key) (v : GoVal) :
    Except String LazyAppState :=
  match withValue (baseCtx a) key v with
  | Except.error s => Except.error s
  | Except.ok c2 => Except.ok { ctx := some c2 }

/-- `AppSet[T](app, value)` from the `lazyapp` source:
`app.AddValue(reflect.TypeOf(*new(T)), value)`. -/
def appSet (a : LazyAppState) (T : GoType) (v : GoVal) :
    Except String LazyAppState :=
  addValue a (typeTokenKey T) v

/-! ### Lemmas about context lookup -/

theorem ctxValue_nil_query (c : GoCtx) : ctxValue c none = none := by
  induction c with
  | background => rfl
  | node parent k v ih => simp [ctxValue, ih]

theorem ctxValue_unbound (c : GoCtx) (k : Key) (h : bindsKey c k = false) :
    ctxValue c (some k) = none := by
  induction c with
  | background => rfl
  | node parent k0 v ih =>
    simp only [bindsKey, Bool.or_eq_false_iff, decide_eq_false_iff_not] at h
    simp [ctxValue, h.1, ih h.2]

/-! ### Services, the `serviceFunc` adapter and the manager run loop -/

/-- A `Service` as consumed by the supervisor: `Desc().Name()` collapsed to
a name, and `Run`, giving the error the service returns on the per-service
context it is handed. -/
structure Service where
  name : String
  run : GoCtx → Option GoErr

/-- `srvFn` from src/lazyservice.go: a name paired with a plain function
taking the context and a logger. -/
structure SrvFn where
  name : String
  f : GoCtx → SlogLogger → Option GoErr

/-- `serviceFunc(name, f)` from src/lazyservice.go: wrap a plain function
into a service, pairing it with the caller-supplied name. -/
def serviceFunc (name : String) (f : GoCtx → SlogLogger → Option GoErr) :
    SrvFn :=
  { name := name, f := f }

/-- `serviceFuncDesc` from src/lazyservice.go, whose `Name()` is its only
field. -/
structure ServiceFuncDesc where
  name : String
deriving DecidableEq

/-- `srvFn.Desc()`: the description carrying the caller-supplied name. -/
def SrvFn.desc (s : SrvFn) : ServiceFuncDesc := { name := s.name }

/-- Modelled from the spec: `lazycontext.Get` (package
`golazy.dev/lazycontext`, whose source is not under src); §4.1 gives it the
same contract as the in-source `AppGet` — return the value bound for the
type token in the context or any ancestor, or the zero value when none is
bound — so it delegates to `appGet`. -/
def lazycontextGet (T : GoType) (c : GoCtx) : GoVal := appGet T c

/-- The logger `srvFn.Run` resolves before calling the wrapped function:
`lazycontext.Get[*slog.Logger](ctx)`, replaced by `slog.Default()` when it
is nil. -/
def srvResolvedLogger (ctx : GoCtx) : SlogLogger :=
  match (lazycontextGet ptrSlogLoggerT ctx).payload with
  | GoPayload.logger lg => lg
  | _ => slogDefault

/-- `srvFn.Run(ctx)` from src/lazyservice.go: resolve the logger from the
context (default when absent) and return exactly what the wrapped function
returns on the context and that logger. -/
def SrvFn.run (s : SrvFn) (ctx : GoCtx) : Option GoErr :=
  s.f ctx (srvResolvedLogger ctx)

/-- The key `reflect.TypeOf(a.logger)` under which each per-service task
binds its service-scoped logger: the type token of `*slog.Logger`. -/
def loggerKey : Key := Key.typeTok ptrSlogLoggerT

/-- The per-service context derived inside the `grp.Go` closure:
`context.WithValue(grpCtx, reflect.TypeOf(a.logger), a.logger.With("service", name))`.
The key is a non-nil type token, so `WithValue` returns the child node. -/
def perServiceCtx (grpCtx : GoCtx) (appLogger : SlogLogger)
    (svcName : String) : GoCtx :=
  GoCtx.node grpCtx loggerKey
    { ty := ptrSlogLoggerT
      payload := GoPayload.logger (appLogger.withAttr "service" svcName) }

/-- The raw error one service task observes: the service's `Run` invoked on
its per-service context. -/
def runTaskRaw (appLogger : SlogLogger) (grpCtx : GoCtx) (s : Service) :
    Option GoErr :=
  s.run (perServiceCtx grpCtx appLogger s.name)

/-- What one service task contributes to the errgroup: its raw result after
benign classification. -/
def taskContrib (appLogger : SlogLogger) (grpCtx : GoCtx) (s : Service) :
    Option GoErr :=
  classify (runTaskRaw appLogger grpCtx s)

/-- The part of the `manager` struct the registration and run loop touch:
its registered service sequence.  (`AppContext`, `logger`, `done` and
`cancel` do not participate in registration.) -/
structure ManagerState where
  services : List Service

/-- `manager.AddService(s)` from src/unnamed/part_000: append to the
service sequence.  Total — no name validation, no error path. -/
def addService (a : ManagerState) (s : Service) : ManagerState :=
  { services := a.services ++ [s] }

/-! ### The interrupt-bound root context of `lazyApp.Run`

Cancellation is a separate dimension of Go contexts from value carrying;
it is modelled by its own small state. -/

/-- The cancellation-relevant state of a root context: whether it can be
canceled at all, whether an interrupt signal cancels it, and whether it has
been canceled. -/
structure SignalCtx where
  cancellable : Bool
  interruptBound : Bool
  canceled : Bool
deriving DecidableEq

/-- `signal.NotifyContext(context.Background(), os.Interrupt)` (standard
library, documented semantics): a cancellable context that is canceled when
an interrupt signal is delivered to the process. -/
def notifyContextInterrupt : SignalCtx :=
  { cancellable := true, interruptBound := true, canceled := false }

/-- The context setup at the top of `lazyApp.Run`: when the app was built
without a context (`a.ctx == nil`), replace it by
`signal.NotifyContext(context.Background(), os.Interrupt)`; otherwise keep
the supplied one. -/
def lazyAppRunCtxInit (supplied : Option SignalCtx) : SignalCtx :=
  match supplied with
  | some c => c
  | none => notifyContextInterrupt

/-- Delivery of an external interrupt signal: cancels every context bound
to interrupt delivery, and nothing else. -/
def deliverInterrupt (c : SignalCtx) : SignalCtx :=
  if c.interruptBound then { c with canceled := true } else c

/-- Whether the errgroup's group context — a child of the root — observes
cancellation: when the root (its ancestor) is canceled or the group itself
was canceled by a failing task. -/
def groupObservesCancel (root : SignalCtx) (groupCancelFlag : Bool) : Bool :=
  root.canceled || groupCancelFlag

/-! ### Claim theorems -/

/-- Claim C2: for every error a service's `Run` returns, the per-task
classifier contributes nil whenever the error is equivalent — under
wrapped-error matching — to context canceled or deadline exceeded,
regardless of which service produced it; any other non-nil error is
contributed as-is (logging is a side channel that does not change the
value). -/
theorem task_classifier_benign_to_nil (e : GoErr) :
    (benign e = true → classify (some e) = none)
    ∧ (benign e = false → classify (some e) = some e)
    ∧ (∀ lg gctx s, runTaskRaw lg gctx s = some e →
        taskContrib lg gctx s = classify (some e)) := by
  refine ⟨?_, ?_, ?_⟩
  · intro h; simp [classify, h]
  · intro h; simp [classify, h]
  · intro lg gctx s h; simp [taskContrib, h]

/-- Witness for the C2 theorem at a wrapped cancellation error and at a
genuine failure. -/
theorem task_classifier_benign_to_nil_witness :
    classify (some (GoErr.wrap GoErr.canceled "shutting down")) = none
    ∧ classify (some (GoErr.base "boom")) = some (GoErr.base "boom") :=
  ⟨(task_classifier_benign_to_nil (GoErr.wrap GoErr.canceled "shutting down")).1
      (by decide),
   (task_classifier_benign_to_nil (GoErr.base "boom")).2.1 (by decide)⟩

/-- Claim C4: looking a type up on a context where it was never bound —
neither on the context nor on any ancestor — yields the type's zero value;
`AppGet` is a total function, it never errors or panics. -/
theorem appget_unbound_zero (T : GoType) (c : GoCtx)
    (h : boundForType c T = false) : appGet T c = zeroVal T := by
  have hval : ctxValue c (typeTokenKey T) = none := by
    cases htok : typeTokenKey T with
    | none => exact ctxValue_nil_query c
    | some k =>
      apply ctxValue_unbound
      unfold boundForType at h
      rwa [htok] at h
  simp [appGet, hval]

/-- Witness for the C4 theorem: the string type on a context that only
binds an unrelated string key. -/
theorem appget_unbound_zero_witness :
    appGet strT
      (GoCtx.node GoCtx.background (Key.strKey "key")
        { ty := strT, payload := GoPayload.str "value" }) = zeroVal strT :=
  appget_unbound_zero strT _ (by decide)

/-- Claim C5: binding a type on a derived child context (as each
per-service task does for its service-scoped logger) shadows an ancestor's
binding inside the child, leaves every other type's lookup on the child
equal to the parent's, and an unrelated sibling — one derived from the same
parent under a different key — observes the type exactly as the parent
does. The parent itself is untouched: contexts are immutable and the child
holds the parent as a sub-structure. -/
theorem child_binding_frame (parent : GoCtx) (T : GoType) (k : Key)
    (v : GoVal) (hT : typeTokenKey T = some k) (hv : v.ty = T) :
    appGet T (GoCtx.node parent k v) = v
    ∧ (∀ S : GoType, typeTokenKey S ≠ some k →
        appGet S (GoCtx.node parent k v) = appGet S parent)
    ∧ (∀ k2 v2, k2 ≠ k →
        appGet T (GoCtx.node parent k2 v2) = appGet T parent) := by
  refine ⟨?_, ?_, ?_⟩
  · simp [appGet, hT, ctxValue, hv]
  · intro S hS
    have hskip : ctxValue (GoCtx.node parent k v) (typeTokenKey S) =
        ctxValue parent (typeTokenKey S) := by
      simp only [ctxValue]
      rw [if_neg]
      intro hcontra
      exact hS hcontra.symm
    simp only [appGet, hskip]
  · intro k2 v2 hk
    have hskip : ctxValue (GoCtx.node parent k2 v2) (typeTokenKey T) =
        ctxValue parent (typeTokenKey T) := by
      rw [hT]
      simp only [ctxValue]
      rw [if_neg]
      simp [hk]
    simp only [appGet, hskip]

/-- A sample service-scoped logger value used by witnesses. -/
def loggerValA : GoVal :=
  { ty := ptrSlogLoggerT
    payload := GoPayload.logger { handler := 1, attrs := [("service", "http")] } }

/-- Witness for the C5 theorem: the logger binding of a per-service task
over Background, probed at the logger type, at the string type, and from a
sibling bound under a plain string key. -/
theorem child_binding_frame_witness :
    appGet ptrSlogLoggerT (GoCtx.node GoCtx.background loggerKey loggerValA)
        = loggerValA
    ∧ appGet strT (GoCtx.node GoCtx.background loggerKey loggerValA)
        = appGet strT GoCtx.background
    ∧ appGet ptrSlogLoggerT
          (GoCtx.node GoCtx.background (Key.strKey "key") loggerValA)
        = appGet ptrSlogLoggerT GoCtx.background := by
  obtain ⟨h1, h2, h3⟩ :=
    child_binding_frame GoCtx.background ptrSlogLoggerT loggerKey loggerValA
      (by decide) (by decide)
  exact ⟨h1, h2 strT (by decide), h3 (Key.strKey "key") loggerValA (by decide)⟩

/-- Claim C3: binding a value of a type with `AppSet` and looking the type
up with `AppGet` on the resulting context returns that value. -/
theorem appset_appget_roundtrip (a : LazyAppState) (T : GoType) (v : GoVal)
    (hv : v.ty = T) (st : LazyAppState)
    (hok : appSet a T v = Except.ok st) :
    ∃ c, st.ctx = some c ∧ appGet T c = v := by
  cases hI : T.isInterface with
  | true =>
    exfalso
    unfold appSet addValue withValue typeTokenKey at hok
    rw [hI] at hok
    simp at hok
  | false =>
    have htok : typeTokenKey T = some (Key.typeTok T) := by
      simp [typeTokenKey, hI]
    unfold appSet addValue withValue at hok
    rw [htok] at hok
    simp only [Except.ok.injEq] at hok
    refine ⟨GoCtx.node (baseCtx a) (Key.typeTok T) v, ?_, ?_⟩
    · rw [← hok]
    · simp [appGet, htok, ctxValue, hv]

/-- Witness for the C3 theorem: a `*testStruct` pointer bound on a fresh
app. -/
theorem appset_appget_roundtrip_witness :
    ∃ c, (LazyAppState.mk (some (GoCtx.node GoCtx.background
          (Key.typeTok ptrTestStructT)
          { ty := ptrTestStructT, payload := GoPayload.ptr 7 }))).ctx = some c
      ∧ appGet ptrTestStructT c
          = { ty := ptrTestStructT, payload := GoPayload.ptr 7 } :=
  appset_appget_roundtrip { ctx := none } ptrTestStructT
    { ty := ptrTestStructT, payload := GoPayload.ptr 7 } rfl _ rfl

/-- Claim C9: `AppSet` at an interface type panics — the reflect token of
an interface type's zero value is nil, `AddValue` then hands
`context.WithValue` a nil key, and that is rejected; at a concrete type
`AppSet` always succeeds, binding the value on a child of the app's
context. -/
theorem appset_interface_nil_key (a : LazyAppState) (T : GoType) (v : GoVal) :
    (T.isInterface = true →
      typeTokenKey T = none ∧ appSet a T v = Except.error "nil key")
    ∧ (T.isInterface = false →
      appSet a T v = Except.ok
        { ctx := some (GoCtx.node (baseCtx a) (Key.typeTok T) v) }) := by
  constructor
  · intro h
    refine ⟨by simp [typeTokenKey, h], ?_⟩
    simp [appSet, addValue, withValue, typeTokenKey, h]
  · intro h
    simp [appSet, addValue, withValue, typeTokenKey, h]

/-- Witness for the C9 theorem: the interface type `error` panics, the
concrete type `string` succeeds. -/
theorem appset_interface_nil_key_witness :
    appSet { ctx := none } errIfaceT (zeroVal errIfaceT)
        = Except.error "nil key"
    ∧ appSet { ctx := none } strT { ty := strT, payload := GoPayload.str "x" }
        = Except.ok { ctx := some (GoCtx.node GoCtx.background
            (Key.typeTok strT) { ty := strT, payload := GoPayload.str "x" }) } :=
  ⟨((appset_interface_nil_key { ctx := none } errIfaceT (zeroVal errIfaceT)).1
      rfl).2,
   (appset_interface_nil_key { ctx := none } strT
      { ty := strT, payload := GoPayload.str "x" }).2 rfl⟩

/-- Claim C6: when no root context was supplied at construction, `Run`
creates a cancellable root bound to process interrupt delivery, an external
interrupt cancels that root, and the group context — a child of the root —
then observes cancellation; a supplied root is kept as-is. -/
theorem run_creates_interrupt_root :
    (lazyAppRunCtxInit none).cancellable = true
    ∧ (lazyAppRunCtxInit none).interruptBound = true
    ∧ (lazyAppRunCtxInit none).canceled = false
    ∧ (deliverInterrupt (lazyAppRunCtxInit none)).canceled = true
    ∧ (∀ g : Bool,
        groupObservesCancel (deliverInterrupt (lazyAppRunCtxInit none)) g = true)
    ∧ (∀ c : SignalCtx, lazyAppRunCtxInit (some c) = c) := by
  refine ⟨rfl, rfl, rfl, rfl, fun g => rfl, fun c => rfl⟩

/-- Claim C7: two services registered under identical names are both kept
by `AddService` — which appends without any validation and has no error
path — and a task is spawned for each of them by the run loop, which
invokes every registered service's `Run`; names play no identity role. -/
theorem duplicate_names_both_run (a : ManagerState) (s1 s2 : Service)
    (h : s1.name = s2.name) (lg : SlogLogger) (grpCtx : GoCtx) :
    (addService (addService a s1) s2).services = a.services ++ [s1, s2]
    ∧ (addService (addService a s1) s2).services.length
        = a.services.length + 2
    ∧ (addService (addService a s1) s2).services.map (runTaskRaw lg grpCtx)
        = a.services.map (runTaskRaw lg grpCtx)
          ++ [runTaskRaw lg grpCtx s1, runTaskRaw lg grpCtx s2] := by
  refine ⟨?_, ?_, ?_⟩ <;> simp [addService]

/-- Witness for the C7 theorem: two services both named "http" on a fresh
manager; both raw results appear. -/
theorem duplicate_names_both_run_witness :
    (addService (addService { services := [] }
        { name := "http", run := fun _ => none })
        { name := "http", run := fun _ => some (GoErr.base "boom") }).services.map
      (runTaskRaw slogDefault GoCtx.background)
    = [none, some (GoErr.base "boom")] := by
  have h := duplicate_names_both_run { services := [] }
      { name := "http", run := fun _ => none }
      { name := "http", run := fun _ => some (GoErr.base "boom") }
      rfl slogDefault GoCtx.background
  rw [h.2.2]
  rfl

/-- Claim C8: the `serviceFunc` adapter yields a service whose description
name is exactly the caller-supplied name and whose `Run` returns exactly
the wrapped function's result on the given context (with the logger
argument resolved from that context, defaulting when absent); it adds no
behavior beyond this pairing. -/
theorem service_func_adapter (n : String)
    (f : GoCtx → SlogLogger → Option GoErr) (ctx : GoCtx) :
    (SrvFn.desc (serviceFunc n f)).name = n
    ∧ SrvFn.run (serviceFunc n f) ctx = f ctx (srvResolvedLogger ctx) :=
  ⟨rfl, rfl⟩

/-- Claim C1: a run over a registered sequence of services returns the
first non-nil error among the classified task contributions, in completion
order; every later non-nil contribution is discarded; if every task
contributes nil the run returns nil; and when the services' results are two
distinct non-benign errors, the run returns exactly one of the two —
whichever completes first — never a combined or wrapped pair. -/
theorem manager_run_first_error_wins (appLogger : SlogLogger)
    (grpCtx : GoCtx) (services : List Service)
    (arrivals : List (Option GoErr))
    (hperm : arrivals.Perm (services.map (runTaskRaw appLogger grpCtx))) :
    managerRunFromArrivals arrivals = firstSome (arrivals.map classify)
    ∧ ((∀ r ∈ arrivals, classify r = none) →
        managerRunFromArrivals arrivals = none)
    ∧ (∀ e1 e2 : GoErr, benign e1 = false → benign e2 = false →
        services.map (runTaskRaw appLogger grpCtx) = [some e1, some e2] →
        managerRunFromArrivals arrivals = some e1
          ∨ managerRunFromArrivals arrivals = some e2) := by
  have hfold : managerRunFromArrivals arrivals = firstSome (arrivals.map classify) :=
    groupRun_firstErr _
  refine ⟨hfold, ?_, ?_⟩
  · intro hall
    rw [hfold]
    unfold firstSome
    have hnil : (arrivals.map classify).filterMap id = [] := by
      rw [List.filterMap_eq_nil_iff]
      intro x hx
      rcases List.mem_map.mp hx with ⟨r, hr, rfl⟩
      exact hall r hr
    rw [hnil]
    rfl
  · intro e1 e2 h1 h2 hmap
    rw [hmap] at hperm
    have hlen : arrivals.length = 2 := by simpa using hperm.length_eq
    rcases arrivals with _ | ⟨a, _ | ⟨b, _ | ⟨x, t⟩⟩⟩
    · simp at hlen
    · simp at hlen
    · have ha : a ∈ [some e1, some e2] :=
        hperm.mem_iff.mp (by simp)
      have hres : managerRunFromArrivals [a, b] = a := by
        have ha2 : a = some e1 ∨ a = some e2 := by simpa using ha
        rw [hfold]
        rcases ha2 with rfl | rfl
        · simp [classify, h1, firstSome]
        · simp [classify, h2, firstSome]
      rw [hres]
      simpa using ha
    · simp at hlen

/-- Witness for the C1 theorem: two services, one failing with a genuine
error and one ending benignly; the run returns the failure. -/
theorem manager_run_first_error_wins_witness :
    managerRunFromArrivals [some (GoErr.base "boom"), none]
      = some (GoErr.base "boom") := by
  have h := manager_run_first_error_wins slogDefault GoCtx.background
      [{ name := "a", run := fun _ => some (GoErr.base "boom") },
       { name := "b", run := fun _ => none }]
      [some (GoErr.base "boom"), none]
      (List.Perm.refl _)
  rw [h.1]
  decide

/-- Claim C10: the group context is canceled by the supervisor exactly when
some service task contributes a non-nil error after benign classification;
a nil contribution — a service returning nil or a benign error — leaves the
group state, and hence its siblings, untouched. -/
theorem group_cancel_only_on_failure (raw : List (Option GoErr)) :
    ((groupRun (raw.map classify) groupStart).canceled = true
      ↔ ∃ r ∈ raw, classify r ≠ none)
    ∧ (∀ st : GroupState, groupStep st none = st) := by
  constructor
  · rw [groupRun_canceled, List.any_eq_true]
    constructor
    · rintro ⟨c, hc, hsome⟩
      rcases List.mem_map.mp hc with ⟨r, hr, rfl⟩
      refine ⟨r, hr, ?_⟩
      simpa [Option.isSome_iff_ne_none] using hsome
    · rintro ⟨r, hr, hne⟩
      refine ⟨classify r, List.mem_map_of_mem _ hr, ?_⟩
      simpa [Option.isSome_iff_ne_none] using hne
  · intro st
    rfl

/-- Witness for the C10 theorem: a single genuine failure cancels the
group. -/
theorem group_cancel_only_on_failure_witness :
    (groupRun ([some (GoErr.base "disk full")].map classify)
      groupStart).canceled = true :=
  (group_cancel_only_on_failure [some (GoErr.base "disk full")]).1.mpr
    ⟨some (GoErr.base "disk full"), by simp, by decide⟩
